/-
Verification of the daily check-in bot (src/checkin_bot.py) against its
natural-language specification.

The source is a small Telegram bot backed by an SQLite database with two
tables (`users`, `checkins`).  The shallow embedding below models:
  * the table schemas created by `init_db` (lines 53-82);
  * the `checkin` handler (lines 102-135): ensure the user row exists,
    then check-then-insert today's check-in row;
  * the `stats` handler (lines 137-182): admin gate, the LEFT JOIN /
    GROUP BY / ORDER BY listing query, the empty-result early return,
    and the total `SELECT COUNT(*) FROM checkins`;
  * `get_admin_ids` (lines 184-186): `config.get('ADMIN_IDS', [])`;
  * the `error_handler` (lines 192-197) via an exception-propagating
    variant of the check-in handler with injected storage faults.

SQLite rows become Lean structures; a database state is a `Store` holding
the two tables as lists plus the AUTOINCREMENT counter.  Handlers become
pure functions on `Store`; the concurrency question of two racing check-in
calls is modelled by interleaving the handler's two atomic database
operations (the existence SELECT and the INSERT) under an explicit
schedule.
-/
import Mathlib

namespace CheckinBot

/-! ### Schema, from `init_db` (checkin_bot.py lines 53-82) -/

/-- A column of a CREATE TABLE statement: its name and the modifiers that
matter here (PRIMARY KEY, AUTOINCREMENT, a DEFAULT clause). -/
structure Column where
  name : String
  primaryKey : Bool := false
  autoincrement : Bool := false
  hasDefault : Bool := false
  deriving DecidableEq, Repr

/-- A table-level constraint appearing in a CREATE TABLE statement. -/
inductive TableConstraint where
  | foreignKey (col : String) (refTable : String) (refCol : String)
  | uniqueCols (cols : List String)
  deriving DecidableEq, Repr

/-- Whether a table constraint is a UNIQUE constraint. -/
def TableConstraint.isUniqueC : TableConstraint → Bool
  | .uniqueCols _ => true
  | _ => false

structure TableSchema where
  name : String
  columns : List Column
  constraints : List TableConstraint
  deriving DecidableEq, Repr

/-- The `users` table exactly as created by `init_db` (lines 59-67). -/
def usersTable : TableSchema :=
  { name := "users"
    columns :=
      [ { name := "user_id", primaryKey := true }
      , { name := "username" }
      , { name := "first_name" }
      , { name := "last_name" }
      , { name := "join_date", hasDefault := true } ]
    constraints := [] }

/-- The `checkins` table exactly as created by `init_db` (lines 70-78):
an AUTOINCREMENT primary key, `user_id`, `checkin_date`, `points` with
default 1, and a single FOREIGN KEY table constraint.  No UNIQUE
constraint appears in the source. -/
def checkinsTable : TableSchema :=
  { name := "checkins"
    columns :=
      [ { name := "id", primaryKey := true, autoincrement := true }
      , { name := "user_id" }
      , { name := "checkin_date" }
      , { name := "points", hasDefault := true } ]
    constraints := [ .foreignKey "user_id" "users" "user_id" ] }

/-! ### Data model -/

/-- The fields of `update.effective_user` that the handlers read.
Telegram guarantees `first_name`; `username` and `last_name` may be
absent. -/
structure UserInfo where
  id : Int
  username : Option String
  firstName : String
  lastName : Option String
  deriving DecidableEq, Repr

/-- A row of the `users` table. -/
structure UserRow where
  user_id : Int
  username : Option String
  first_name : String
  last_name : Option String
  join_date : Nat
  deriving DecidableEq, Repr

/-- A row of the `checkins` table. -/
structure CheckinRow where
  id : Nat
  user_id : Int
  checkin_date : String
  points : Nat
  deriving DecidableEq, Repr

/-- The database state: the two tables plus the AUTOINCREMENT counter of
`checkins.id`. -/
structure Store where
  users : List UserRow
  checkins : List CheckinRow
  nextId : Nat
  deriving DecidableEq, Repr

def emptyStore : Store := { users := [], checkins := [], nextId := 1 }

/-! ### Primitive queries (single SQL statements of the source) -/

/-- `SELECT * FROM users WHERE user_id = ?` returned a row (line 112). -/
def userExists (s : Store) (uid : Int) : Bool :=
  s.users.any (fun r => r.user_id == uid)

/-- `INSERT INTO users (user_id, username, first_name, last_name) VALUES
(?, ?, ?, ?)` (lines 114-117); `join_date` takes its DEFAULT, modelled by
the clock value `now`. -/
def insertUser (s : Store) (u : UserInfo) (now : Nat) : Store :=
  { s with users := s.users ++
      [ { user_id := u.id, username := u.username, first_name := u.firstName
        , last_name := u.lastName, join_date := now } ] }

/-- `SELECT * FROM checkins WHERE user_id = ? AND checkin_date = ?`
returned a row (line 122). -/
def hasCheckedIn (s : Store) (uid : Int) (d : String) : Bool :=
  s.checkins.any (fun c => c.user_id == uid && c.checkin_date == d)

/-- `INSERT INTO checkins (user_id, checkin_date) VALUES (?, ?)`
(lines 127-130); `points` takes its DEFAULT 1 and `id` the next
AUTOINCREMENT value. -/
def insertCheckin (s : Store) (uid : Int) (d : String) : Store :=
  { s with
    checkins := s.checkins ++
      [ { id := s.nextId, user_id := uid, checkin_date := d, points := 1 } ]
    nextId := s.nextId + 1 }

/-- Number of `checkins` rows for a given (user_id, checkin_date) pair. -/
def countPair (s : Store) (uid : Int) (d : String) : Nat :=
  (s.checkins.filter (fun c => c.user_id == uid && c.checkin_date == d)).length

/-- Number of `users` rows with a given user_id. -/
def countUser (s : Store) (uid : Int) : Nat :=
  (s.users.filter (fun r => r.user_id == uid)).length

/-- `SELECT COUNT(*) FROM checkins` (line 171). -/
def totalCheckinCount (s : Store) : Nat := s.checkins.length

/-! ### The check-in handler (lines 102-135), sequential semantics -/

inductive CheckinOutcome where
  | checkedIn
  | alreadyCheckedIn
  deriving DecidableEq, Repr

/-- Lines 111-119 of `checkin`: insert the user row if `user_id` is not
present, otherwise do nothing (the spec's `ensureUser`). -/
def ensureUser (s : Store) (u : UserInfo) (now : Nat) : Store :=
  if userExists s u.id then s else insertUser s u now

/-- The whole `checkin` handler run atomically (one request at a time):
ensure the user, then check today's row and insert if absent
(lines 111-133). -/
def checkin (s : Store) (u : UserInfo) (today : String) (now : Nat) :
    Store × CheckinOutcome :=
  let s1 := ensureUser s u now
  if hasCheckedIn s1 u.id today then (s1, .alreadyCheckedIn)
  else (insertCheckin s1 u.id today, .checkedIn)

/-- One check-in request: who, which calendar day, and the clock value
used for a fresh user's `join_date`. -/
structure Op where
  user : UserInfo
  today : String
  now : Nat

/-- A sequence of check-in requests executed one at a time from the empty
store. -/
def runCheckins (ops : List Op) : Store :=
  ops.foldl (fun s o => (checkin s o.user o.today o.now).1) emptyStore

/-! ### The stats handler (lines 137-182) and `get_admin_ids` (184-186) -/

/-- The relevant part of `config.json`: `ADMIN_IDS` may be absent. -/
structure Config where
  adminIds : Option (List Int)

/-- `config.get('ADMIN_IDS', [])` (lines 184-186). -/
def get_admin_ids (cfg : Config) : List Int :=
  cfg.adminIds.getD []

/-- One row of the listing query's result: user fields plus
`COUNT(c.id) AS checkin_count`. -/
structure ReportRow where
  user_id : Int
  username : Option String
  first_name : String
  last_name : Option String
  checkin_count : Nat
  deriving DecidableEq, Repr

/-- The ordering of `ORDER BY checkin_count DESC`. -/
def byCountDesc (a b : ReportRow) : Prop :=
  b.checkin_count ≤ a.checkin_count

instance : DecidableRel byCountDesc := fun a b =>
  inferInstanceAs (Decidable (b.checkin_count ≤ a.checkin_count))

instance : IsTotal ReportRow byCountDesc :=
  ⟨fun a b => (Nat.le_total b.checkin_count a.checkin_count).imp id id⟩

instance : IsTrans ReportRow byCountDesc :=
  ⟨fun _ _ _ h1 h2 => Nat.le_trans h2 h1⟩

/-- The per-user check-in count `COUNT(c.id)` of the LEFT JOIN: the
number of `checkins` rows carrying this user's id (0 when none match). -/
def userCount (s : Store) (uid : Int) : Nat :=
  (s.checkins.filter (fun c => c.user_id == uid)).length

/-- The listing query of lines 148-155: one row per `users` row (the
LEFT JOIN keeps users without check-ins, `GROUP BY u.user_id` collapses
each user to one row), sorted by `checkin_count` descending.  The sort
is a deterministic (stable) sort, matching the query's fixed plan. -/
def listUsersWithCounts (s : Store) : List ReportRow :=
  List.insertionSort byCountDesc
    (s.users.map (fun u =>
      { user_id := u.user_id, username := u.username
      , first_name := u.first_name, last_name := u.last_name
      , checkin_count := userCount s u.user_id }))

/-- What the `stats` handler replies with: the permission denial
(line 141), the dedicated no-data reply (line 158), or the assembled
report rows plus the grand total (lines 162-173). -/
inductive StatsResult where
  | unauthorized
  | noData
  | report (rows : List ReportRow) (total : Nat)
  deriving DecidableEq, Repr

/-- The `stats` handler (lines 137-182), message rendering aside:
reject non-admins before touching the store; on an empty result set
reply "no records yet" and stop; otherwise return the rows and the
total count. -/
def stats (admins : List Int) (requesterId : Int) (s : Store) : StatsResult :=
  if requesterId ∉ admins then .unauthorized
  else
    let rows := listUsersWithCounts s
    if rows.isEmpty then .noData
    else .report rows (totalCheckinCount s)

/-! ### Interleaved execution of two racing check-in record attempts

The source's `checkin` runs two separate SQL statements on the
`checkins` table: the existence SELECT (line 122) and the INSERT
(lines 127-130), with no transaction around the pair and no UNIQUE
constraint backing it.  Each statement is atomic; a concurrent execution
interleaves the statements of the two calls.  A thread is a tiny state
machine: it has not read yet, it has read (remembering what it saw), or
it is done with an outcome. -/

inductive TState where
  | ready
  | decided (found : Bool)
  | finished (out : CheckinOutcome)
  deriving DecidableEq, Repr

/-- One atomic step of one check-in call for (uid, d): first the
existence SELECT, then either the reply (if found) or the INSERT. -/
def tstep (uid : Int) (d : String) : Store × TState → Store × TState
  | (s, .ready) => (s, .decided (hasCheckedIn s uid d))
  | (s, .decided true) => (s, .finished .alreadyCheckedIn)
  | (s, .decided false) => (insertCheckin s uid d, .finished .checkedIn)
  | (s, .finished o) => (s, .finished o)

/-- Run two calls A and B for the same (uid, d) under a schedule: `true`
steps A, `false` steps B. -/
def runSched (uid : Int) (d : String) :
    List Bool → Store × TState × TState → Store × TState × TState
  | [], st => st
  | (true :: rest), (s, a, b) =>
      let p := tstep uid d (s, a)
      runSched uid d rest (p.1, p.2, b)
  | (false :: rest), (s, a, b) =>
      let p := tstep uid d (s, b)
      runSched uid d rest (p.1, a, p.2)

/-! ### Storage faults and the error handler (lines 192-197)

`checkin` contains no try/except: an exception raised by any of its four
database statements aborts the handler and reaches the dispatcher's
`error_handler`, which replies with the one generic failure message.  We
model this with an `Except` rendition of the handler in which each
statement can be made to raise. -/

/-- Which of the four database statements of `checkin` raises (when it
is reached). -/
structure Faults where
  usersSelect : Bool := false
  usersInsert : Bool := false
  checkinsSelect : Bool := false
  checkinsInsert : Bool := false

/-- A storage failure, tagged with the statement that raised it, so that
propagation can be observed to be verbatim. -/
inductive StorageError where
  | usersSelect
  | usersInsert
  | checkinsSelect
  | checkinsInsert
  deriving DecidableEq, Repr

/-- The `checkin` handler with exception semantics: the same statements
in the same order as lines 111-133, each either raising (per `f`) or
behaving normally.  There is no handler inside, so the first raise
aborts the whole call. -/
def checkinE (f : Faults) (s : Store) (u : UserInfo) (today : String)
    (now : Nat) : Except StorageError (Store × CheckinOutcome) :=
  if f.usersSelect then .error .usersSelect
  else
    match (if userExists s u.id then Except.ok s
           else if f.usersInsert then Except.error StorageError.usersInsert
           else Except.ok (insertUser s u now) :
            Except StorageError Store) with
    | .error e => .error e
    | .ok s1 =>
        if f.checkinsSelect then .error .checkinsSelect
        else if hasCheckedIn s1 u.id today then
          .ok (s1, CheckinOutcome.alreadyCheckedIn)
        else if f.checkinsInsert then .error .checkinsInsert
        else .ok (insertCheckin s1 u.id today, CheckinOutcome.checkedIn)

def msgSuccess : String := "签到成功！获得1积分。"
def msgAlready : String := "今天已经签到过了，明天再来吧！"
def msgGenericError : String := "抱歉，处理您的请求时出现了错误。"

/-- What the user sees for one check-in request: the handler's own reply
on success, or the generic message from `error_handler` (line 197) when
the handler raised. -/
def checkinReply (f : Faults) (s : Store) (u : UserInfo) (today : String)
    (now : Nat) : String :=
  match checkinE f s u today now with
  | .error _ => msgGenericError
  | .ok (_, .checkedIn) => msgSuccess
  | .ok (_, .alreadyCheckedIn) => msgAlready

/-- The fault-free faults record. -/
def noFaults : Faults := {}

/-! ### Basic lemmas about the primitive queries -/

theorem userExists_iff (s : Store) (uid : Int) :
    userExists s uid = true ↔ ∃ r ∈ s.users, r.user_id = uid := by
  simp [userExists, List.any_eq_true]

theorem hasCheckedIn_iff (s : Store) (uid : Int) (d : String) :
    hasCheckedIn s uid d = true ↔
      ∃ c ∈ s.checkins, c.user_id = uid ∧ c.checkin_date = d := by
  simp [hasCheckedIn, List.any_eq_true]

theorem hasCheckedIn_false_iff (s : Store) (uid : Int) (d : String) :
    hasCheckedIn s uid d = false ↔ countPair s uid d = 0 := by
  rw [← Bool.not_eq_true, hasCheckedIn_iff]
  simp [countPair, List.length_eq_zero, List.filter_eq_nil_iff]

theorem countPair_pos_iff (s : Store) (uid : Int) (d : String) :
    1 ≤ countPair s uid d ↔ hasCheckedIn s uid d = true := by
  constructor
  · intro h
    by_contra hc
    rw [Bool.not_eq_true, hasCheckedIn_false_iff] at hc
    omega
  · intro h
    by_contra hc
    have h0 : countPair s uid d = 0 := by omega
    rw [← hasCheckedIn_false_iff] at h0
    rw [h] at h0
    exact Bool.noConfusion h0

theorem ensureUser_checkins (s : Store) (u : UserInfo) (now : Nat) :
    (ensureUser s u now).checkins = s.checkins := by
  unfold ensureUser insertUser
  split <;> rfl

theorem ensureUser_nextId (s : Store) (u : UserInfo) (now : Nat) :
    (ensureUser s u now).nextId = s.nextId := by
  unfold ensureUser insertUser
  split <;> rfl

theorem ensureUser_of_exists (s : Store) (u : UserInfo) (now : Nat)
    (h : userExists s u.id = true) : ensureUser s u now = s := by
  simp [ensureUser, h]

theorem countPair_insertCheckin (s : Store) (uid : Int) (d : String)
    (uid' : Int) (d' : String) :
    countPair (insertCheckin s uid d) uid' d' =
      countPair s uid' d' + (if uid = uid' ∧ d = d' then 1 else 0) := by
  simp only [countPair, insertCheckin, List.filter_append, List.length_append]
  congr 1
  by_cases h1 : uid = uid' <;> by_cases h2 : d = d' <;>
    simp [List.filter_cons, h1, h2]

theorem countPair_ne_of_insertCheckin (s : Store) (uid : Int) (d : String)
    (uid' : Int) (d' : String) (h : ¬(uid = uid' ∧ d = d')) :
    countPair (insertCheckin s uid d) uid' d' = countPair s uid' d' := by
  rw [countPair_insertCheckin]
  simp [h]

theorem hasCheckedIn_false_of_not_exists (s : Store) (uid : Int) (d : String)
    (hex : userExists s uid = false)
    (hfk : ∀ c ∈ s.checkins, ∃ r ∈ s.users, r.user_id = c.user_id) :
    hasCheckedIn s uid d = false := by
  rw [← Bool.not_eq_true, hasCheckedIn_iff]
  rintro ⟨c, hc, hcu, -⟩
  obtain ⟨r, hr, hru⟩ := hfk c hc
  have : userExists s uid = true := by
    rw [userExists_iff]
    exact ⟨r, hr, by rw [hru, hcu]⟩
  rw [this] at hex
  exact Bool.noConfusion hex

/-- Shape of `checkin` when the user row already exists. -/
theorem checkin_of_exists (s : Store) (u : UserInfo) (today : String)
    (now : Nat) (hex : userExists s u.id = true) :
    checkin s u today now =
      if hasCheckedIn s u.id today then (s, CheckinOutcome.alreadyCheckedIn)
      else (insertCheckin s u.id today, CheckinOutcome.checkedIn) := by
  simp [checkin, ensureUser_of_exists s u now hex]

/-- Shape of `checkin` for a brand-new user: under referential integrity
the new user can have no prior check-in row, so the insert branch runs. -/
theorem checkin_of_not_exists (s : Store) (u : UserInfo) (today : String)
    (now : Nat) (hex : userExists s u.id = false)
    (hfk : ∀ c ∈ s.checkins, ∃ r ∈ s.users, r.user_id = c.user_id) :
    checkin s u today now =
      (insertCheckin (insertUser s u now) u.id today,
        CheckinOutcome.checkedIn) := by
  have hch : hasCheckedIn (insertUser s u now) u.id today = false := by
    have : hasCheckedIn s u.id today = false :=
      hasCheckedIn_false_of_not_exists s u.id today hex hfk
    simpa [hasCheckedIn, insertUser] using this
  simp [checkin, ensureUser, hex, hch]

/-! ### The reachable-state invariant -/

/-- The state invariant maintained by sequential executions of the
check-in handler from the empty store: user ids are unique (the
`user_id` PRIMARY KEY), every check-in row references an existing user
(the FOREIGN KEY), every user has at least one check-in row (users are
only ever created inside a check-in request), at most one check-in row
exists per (user, day) (the central uniqueness invariant), and every
check-in row carries the default 1 point. -/
structure Inv (s : Store) : Prop where
  nodupIds : (s.users.map (fun r => r.user_id)).Nodup
  fk : ∀ c ∈ s.checkins, ∃ r ∈ s.users, r.user_id = c.user_id
  covered : ∀ r ∈ s.users, ∃ c ∈ s.checkins, c.user_id = r.user_id
  dayUnique : ∀ uid d, countPair s uid d ≤ 1
  pointsOne : ∀ c ∈ s.checkins, c.points = 1

theorem inv_empty : Inv emptyStore := by
  constructor <;> simp [emptyStore, countPair]

theorem inv_insertCheckin (s : Store) (uid : Int) (d : String)
    (h : Inv s) (hmem : ∃ r ∈ s.users, r.user_id = uid)
    (hch : hasCheckedIn s uid d = false) :
    Inv (insertCheckin s uid d) := by
  refine ⟨?_, ?_, ?_, ?_, ?_⟩
  · simpa [insertCheckin] using h.nodupIds
  · intro c hc
    simp only [insertCheckin, List.mem_append, List.mem_singleton] at hc
    rcases hc with hc | hc
    · obtain ⟨r, hr, hru⟩ := h.fk c hc
      exact ⟨r, by simpa [insertCheckin] using hr, hru⟩
    · obtain ⟨r, hr, hru⟩ := hmem
      exact ⟨r, by simpa [insertCheckin] using hr, by simp [hc, hru]⟩
  · intro r hr
    simp only [insertCheckin] at hr
    obtain ⟨c, hc, hcu⟩ := h.covered r hr
    exact ⟨c, by simp [insertCheckin, List.mem_append, hc], hcu⟩
  · intro uid' d'
    rw [countPair_insertCheckin]
    by_cases hp : uid = uid' ∧ d = d'
    · obtain ⟨h1, h2⟩ := hp
      subst h1; subst h2
      rw [hasCheckedIn_false_iff] at hch
      simp [hch]
    · have := h.dayUnique uid' d'
      simp [hp]
      omega
  · intro c hc
    simp only [insertCheckin, List.mem_append, List.mem_singleton] at hc
    rcases hc with hc | hc
    · exact h.pointsOne c hc
    · simp [hc]

theorem inv_checkin (s : Store) (u : UserInfo) (today : String) (now : Nat)
    (h : Inv s) : Inv (checkin s u today now).1 := by
  by_cases hex : userExists s u.id = true
  · rw [checkin_of_exists s u today now hex]
    by_cases hch : hasCheckedIn s u.id today = true
    · simpa [hch] using h
    · rw [Bool.not_eq_true] at hch
      simp only [hch, Bool.false_eq_true, if_false]
      exact inv_insertCheckin s u.id today h
        ((userExists_iff s u.id).mp hex) hch
  · rw [Bool.not_eq_true] at hex
    rw [checkin_of_not_exists s u today now hex h.fk]
    have hch : hasCheckedIn s u.id today = false :=
      hasCheckedIn_false_of_not_exists s u.id today hex h.fk
    have hnotmem : ∀ r ∈ s.users, ¬r.user_id = u.id := by
      intro r hr hru
      have : userExists s u.id = true :=
        (userExists_iff s u.id).mpr ⟨r, hr, hru⟩
      rw [this] at hex
      exact Bool.noConfusion hex
    refine ⟨?_, ?_, ?_, ?_, ?_⟩
    · simpa [insertCheckin, insertUser, List.nodup_append] using
        ⟨h.nodupIds, hnotmem⟩
    · intro c hc
      simp only [insertCheckin, insertUser, List.mem_append,
        List.mem_singleton] at hc ⊢
      rcases hc with hc | hc
      · obtain ⟨r, hr, hru⟩ := h.fk c hc
        exact ⟨r, Or.inl hr, hru⟩
      · exact ⟨_, Or.inr rfl, by simp [hc]⟩
    · intro r hr
      simp only [insertCheckin, insertUser, List.mem_append,
        List.mem_singleton] at hr ⊢
      rcases hr with hr | hr
      · obtain ⟨c, hc, hcu⟩ := h.covered r hr
        exact ⟨c, Or.inl hc, hcu⟩
      · exact ⟨_, Or.inr rfl, by simp [hr]⟩
    · intro uid' d'
      have hins : countPair (insertUser s u now) uid' d' =
          countPair s uid' d' := by
        simp [countPair, insertUser]
      rw [countPair_insertCheckin]
      by_cases hp : u.id = uid' ∧ today = d'
      · obtain ⟨h1, h2⟩ := hp
        subst h1; subst h2
        rw [hasCheckedIn_false_iff] at hch
        simp [hins, hch]
      · have := h.dayUnique uid' d'
        simp [hp, hins]
        omega
    · intro c hc
      simp only [insertCheckin, insertUser, List.mem_append,
        List.mem_singleton] at hc
      rcases hc with hc | hc
      · exact h.pointsOne c hc
      · simp [hc]

theorem inv_foldl (ops : List Op) :
    ∀ s : Store, Inv s →
      Inv (ops.foldl (fun s o => (checkin s o.user o.today o.now).1) s) := by
  induction ops with
  | nil => intro s h; exact h
  | cons o rest ih =>
      intro s h
      exact ih _ (inv_checkin s o.user o.today o.now h)

theorem inv_runCheckins (ops : List Op) : Inv (runCheckins ops) :=
  inv_foldl ops emptyStore inv_empty

theorem userExists_of_checkedIn (s : Store) (uid : Int) (d : String)
    (hfk : ∀ c ∈ s.checkins, ∃ r ∈ s.users, r.user_id = c.user_id)
    (h : hasCheckedIn s uid d = true) : userExists s uid = true := by
  rw [hasCheckedIn_iff] at h
  obtain ⟨c, hc, hcu, -⟩ := h
  obtain ⟨r, hr, hru⟩ := hfk c hc
  exact (userExists_iff s uid).mpr ⟨r, hr, by rw [hru, hcu]⟩

/-- A reference user used to instantiate universally quantified theorems
at a concrete input. -/
def demoUser : UserInfo :=
  { id := 1, username := some "alice", firstName := "Alice", lastName := none }

def demoUserB : UserInfo :=
  { id := 2, username := none, firstName := "Bob", lastName := some "B" }

/-! ### Claim theorems -/

/-- C1 counterexample.  The claim asserts that a UNIQUE(user_id,
checkin_date) constraint is declared in the `checkins` schema and that
under a race exactly one of two concurrent check-in calls inserts a row.
Neither holds of the code: the schema created by `init_db` carries no
UNIQUE constraint at all, and under the schedule A-SELECT, B-SELECT,
A-INSERT, B-INSERT both calls of user 1 on day "2024-01-01" insert a row
and both report success, leaving two rows for the pair. -/
theorem c1_race_and_schema_counterexample :
    checkinsTable.constraints.all (fun c => ! c.isUniqueC) = true ∧
    (runSched 1 "2024-01-01" [true, false, true, false]
        (emptyStore, TState.ready, TState.ready)).2.1 =
      TState.finished CheckinOutcome.checkedIn ∧
    (runSched 1 "2024-01-01" [true, false, true, false]
        (emptyStore, TState.ready, TState.ready)).2.2 =
      TState.finished CheckinOutcome.checkedIn ∧
    countPair (runSched 1 "2024-01-01" [true, false, true, false]
        (emptyStore, TState.ready, TState.ready)).1 1 "2024-01-01" = 2 := by
  decide

/-- C1 (corrected).  The `checkins` schema declares no UNIQUE
constraint; the code relies on an application-level check-then-insert,
which keeps at most one row per (user_id, day) only when check-in calls
execute one at a time — and there is an interleaving of two concurrent
calls for the same (user_id, day) in which both insert a row and both
report success. -/
theorem c1_check_then_insert_only :
    checkinsTable.constraints.all (fun c => ! c.isUniqueC) = true ∧
    (∀ ops : List Op, ∀ uid d, countPair (runCheckins ops) uid d ≤ 1) ∧
    ((runSched 1 "2024-01-01" [true, false, true, false]
          (emptyStore, TState.ready, TState.ready)).2.1 =
        TState.finished CheckinOutcome.checkedIn ∧
      (runSched 1 "2024-01-01" [true, false, true, false]
          (emptyStore, TState.ready, TState.ready)).2.2 =
        TState.finished CheckinOutcome.checkedIn ∧
      countPair (runSched 1 "2024-01-01" [true, false, true, false]
          (emptyStore, TState.ready, TState.ready)).1 1 "2024-01-01" = 2) := by
  refine ⟨by decide, ?_, by decide⟩
  intro ops uid d
  exact (inv_runCheckins ops).dayUnique uid d

/-- C2.  Along any sequence of check-in requests executed one at a time
from the empty store: at most one `checkins` row exists per (user_id,
checkin_date); a user's first check-in of a day returns `checkedIn`,
appends exactly one row for that pair (credited the default 1 point,
like every row of the table); and a later check-in by that user on the
same day returns `alreadyCheckedIn` and leaves the store untouched. -/
theorem checkin_once_per_day (ops : List Op) :
    (∀ uid d, countPair (runCheckins ops) uid d ≤ 1) ∧
    (∀ u d n, countPair (runCheckins ops) u.id d = 0 →
      (checkin (runCheckins ops) u d n).2 = CheckinOutcome.checkedIn ∧
      (checkin (runCheckins ops) u d n).1.checkins.length =
        (runCheckins ops).checkins.length + 1 ∧
      countPair (checkin (runCheckins ops) u d n).1 u.id d = 1 ∧
      ∀ c ∈ (checkin (runCheckins ops) u d n).1.checkins, c.points = 1) ∧
    (∀ u d n, 1 ≤ countPair (runCheckins ops) u.id d →
      (checkin (runCheckins ops) u d n).2 = CheckinOutcome.alreadyCheckedIn ∧
      (checkin (runCheckins ops) u d n).1 = runCheckins ops) := by
  have hinv := inv_runCheckins ops
  set s := runCheckins ops with hs
  refine ⟨hinv.dayUnique, ?_, ?_⟩
  · intro u d n h0
    have hch : hasCheckedIn s u.id d = false :=
      (hasCheckedIn_false_iff s u.id d).mpr h0
    have hpoints : ∀ c ∈ (checkin s u d n).1.checkins, c.points = 1 :=
      (inv_checkin s u d n hinv).pointsOne
    by_cases hex : userExists s u.id = true
    · rw [checkin_of_exists s u d n hex]
      simp only [hch, Bool.false_eq_true, if_false]
      refine ⟨trivial, ?_, ?_, ?_⟩
      · simp [insertCheckin]
      · rw [countPair_insertCheckin]
        simp [h0]
      · intro c hc
        refine hpoints c ?_
        rw [checkin_of_exists s u d n hex]
        simpa [hch] using hc
    · rw [Bool.not_eq_true] at hex
      rw [checkin_of_not_exists s u d n hex hinv.fk]
      refine ⟨rfl, ?_, ?_, ?_⟩
      · simp [insertCheckin, insertUser]
      · have hins : countPair (insertUser s u n) u.id d = countPair s u.id d := by
          simp [countPair, insertUser]
        rw [countPair_insertCheckin]
        simp [hins, h0]
      · intro c hc
        refine hpoints c ?_
        rw [checkin_of_not_exists s u d n hex hinv.fk]
        exact hc
  · intro u d n h1
    have hch : hasCheckedIn s u.id d = true :=
      (countPair_pos_iff s u.id d).mp h1
    have hex : userExists s u.id = true :=
      userExists_of_checkedIn s u.id d hinv.fk hch
    rw [checkin_of_exists s u d n hex]
    simp [hch]

/-- C2 witness: with one prior check-in of the demo user on 2024-01-01,
a second check-in of the same user on the same day returns
`alreadyCheckedIn`. -/
theorem checkin_once_per_day_witness :
    (checkin (runCheckins [⟨demoUser, "2024-01-01", 0⟩]) demoUser
      "2024-01-01" 5).2 = CheckinOutcome.alreadyCheckedIn :=
  ((checkin_once_per_day [⟨demoUser, "2024-01-01", 0⟩]).2.2 demoUser
    "2024-01-01" 5 (by decide)).1

/-! ### ensureUser: repetition and no-overwrite -/

/-- N successive executions of the user-registration step (lines 111-119),
each with its own metadata and clock value. -/
def runEnsures (s : Store) (calls : List (UserInfo × Nat)) : Store :=
  calls.foldl (fun s p => ensureUser s p.1 p.2) s

theorem runEnsures_noop (uid : Int) (calls : List (UserInfo × Nat)) :
    ∀ s : Store, userExists s uid = true → (∀ p ∈ calls, p.1.id = uid) →
      runEnsures s calls = s := by
  induction calls with
  | nil => intro s _ _; rfl
  | cons p rest ih =>
      intro s hex hids
      have hp : p.1.id = uid := hids p (List.mem_cons_self p rest)
      have : ensureUser s p.1 p.2 = s :=
        ensureUser_of_exists s p.1 p.2 (by rw [hp]; exact hex)
      show runEnsures (ensureUser s p.1 p.2) rest = s
      rw [this]
      exact ih s hex (fun q hq => hids q (List.mem_cons_of_mem p hq))

theorem userExists_insertUser (s : Store) (u : UserInfo) (now : Nat) :
    userExists (insertUser s u now) u.id = true := by
  simp [userExists, insertUser, List.any_append]

theorem countUser_insertUser (s : Store) (u : UserInfo) (now : Nat)
    (uid : Int) :
    countUser (insertUser s u now) uid =
      countUser s uid + (if u.id = uid then 1 else 0) := by
  simp only [countUser, insertUser, List.filter_append, List.length_append]
  congr 1
  by_cases h : u.id = uid <;> simp [List.filter_cons, h]

theorem countUser_eq_zero_of_not_exists (s : Store) (uid : Int)
    (h : userExists s uid = false) : countUser s uid = 0 := by
  rw [← Bool.not_eq_true, userExists_iff] at h
  simp only [countUser, List.length_eq_zero, List.filter_eq_nil_iff]
  intro r hr
  simp only [beq_iff_eq]
  exact fun hru => h ⟨r, hr, hru⟩

theorem countUser_pos_of_exists (s : Store) (uid : Int)
    (h : userExists s uid = true) : 1 ≤ countUser s uid := by
  rw [userExists_iff] at h
  obtain ⟨r, hr, hru⟩ := h
  have : r ∈ s.users.filter (fun x => x.user_id == uid) :=
    List.mem_filter.mpr ⟨hr, by simp [hru]⟩
  exact List.length_pos_of_mem this

/-- C3.  The user-registration step is idempotent: starting from any
store holding at most one row for `uid` (the PRIMARY KEY guarantee),
running it N ≥ 1 times for `uid` — with possibly different metadata and
clock on each call — leaves exactly one `users` row for `uid`.  When the
row already exists the whole run is a no-op (the store, hence the stored
username, first_name, last_name and join_date, is unchanged); when it
does not, exactly the first call's row is appended. -/
theorem ensureUser_idempotent (s : Store) (uid : Int) (c : UserInfo × Nat)
    (rest : List (UserInfo × Nat)) (hc : c.1.id = uid)
    (hrest : ∀ p ∈ rest, p.1.id = uid) (hle : countUser s uid ≤ 1) :
    countUser (runEnsures s (c :: rest)) uid = 1 ∧
    (userExists s uid = true → runEnsures s (c :: rest) = s) ∧
    (userExists s uid = false →
      (runEnsures s (c :: rest)).users = s.users ++
        [{ user_id := uid, username := c.1.username
         , first_name := c.1.firstName, last_name := c.1.lastName
         , join_date := c.2 }]) := by
  by_cases hex : userExists s uid = true
  · have hnoop : runEnsures s (c :: rest) = s := by
      show runEnsures (ensureUser s c.1 c.2) rest = s
      rw [ensureUser_of_exists s c.1 c.2 (by rw [hc]; exact hex)]
      exact runEnsures_noop uid rest s hex hrest
    refine ⟨?_, fun _ => hnoop, ?_⟩
    · rw [hnoop]
      have := countUser_pos_of_exists s uid hex
      omega
    · intro hfalse
      rw [hfalse] at hex
      exact absurd hex (by simp)
  · rw [Bool.not_eq_true] at hex
    have hstep : ensureUser s c.1 c.2 = insertUser s c.1 c.2 := by
      simp [ensureUser, hc, hex]
    have hex' : userExists (insertUser s c.1 c.2) uid = true := by
      have := userExists_insertUser s c.1 c.2
      rwa [hc] at this
    have hrun : runEnsures s (c :: rest) = insertUser s c.1 c.2 := by
      show runEnsures (ensureUser s c.1 c.2) rest = _
      rw [hstep]
      exact runEnsures_noop uid rest _ hex' hrest
    refine ⟨?_, ?_, ?_⟩
    · rw [hrun, countUser_insertUser,
        countUser_eq_zero_of_not_exists s uid hex]
      simp [hc]
    · intro htrue
      rw [htrue] at hex
      exact absurd hex (by simp)
    · intro _
      rw [hrun]
      simp [insertUser, hc]

/-- C3 witness: with the demo user already registered (via a check-in),
re-running the registration step twice with fresh metadata changes
nothing. -/
theorem ensureUser_idempotent_witness :
    runEnsures (runCheckins [⟨demoUser, "2024-01-01", 0⟩])
        [(⟨1, none, "Alicia", some "X"⟩, 9), (⟨1, some "al", "Ann", none⟩, 11)] =
      runCheckins [⟨demoUser, "2024-01-01", 0⟩] :=
  (ensureUser_idempotent (runCheckins [⟨demoUser, "2024-01-01", 0⟩]) 1
      (⟨1, none, "Alicia", some "X"⟩, 9) [(⟨1, some "al", "Ann", none⟩, 11)]
      (by decide) (by decide) (by decide)).2.1 (by decide)

/-- C9 (implicit).  After any sequence of check-in requests executed one
at a time from the empty store, every `users` row has at least one
`checkins` row (registration and the first insertion happen inside the
same request), so every row of the listing query carries a count of at
least 1 — a zero count never appears in the report. -/
theorem every_user_has_checkin (ops : List Op) :
    (∀ r ∈ (runCheckins ops).users,
      ∃ c ∈ (runCheckins ops).checkins, c.user_id = r.user_id) ∧
    (∀ row ∈ listUsersWithCounts (runCheckins ops), 1 ≤ row.checkin_count) := by
  have hinv := inv_runCheckins ops
  refine ⟨hinv.covered, ?_⟩
  intro row hrow
  rw [listUsersWithCounts, List.mem_insertionSort, List.mem_map] at hrow
  obtain ⟨u, hu, hrender⟩ := hrow
  obtain ⟨c, hc, hcu⟩ := hinv.covered u hu
  have hmem : c ∈ (runCheckins ops).checkins.filter
      (fun x => x.user_id == u.user_id) :=
    List.mem_filter.mpr ⟨hc, by simp [hcu]⟩
  have : 1 ≤ userCount (runCheckins ops) u.user_id :=
    List.length_pos_of_mem hmem
  rw [← hrender]
  exact this

/-- C9 witness: after the demo user's single check-in, their report row
has count at least 1. -/
theorem every_user_has_checkin_witness :
    1 ≤ (ReportRow.mk 1 (some "alice") "Alice" none 1).checkin_count :=
  (every_user_has_checkin [⟨demoUser, "2024-01-01", 0⟩]).2
    (ReportRow.mk 1 (some "alice") "Alice" none 1) (by decide)

/-- C4.  The listing query returns one row per registered user — users
with zero check-ins included, thanks to the LEFT JOIN — each carrying
that user's check-in count; the rows are sorted by count descending; and
the output is determined by the table contents alone, so repeated calls
with no intervening writes agree. -/
theorem listUsersWithCounts_spec (s : Store) :
    List.Sorted byCountDesc (listUsersWithCounts s) ∧
    (∀ u ∈ s.users,
      ({ user_id := u.user_id, username := u.username
       , first_name := u.first_name, last_name := u.last_name
       , checkin_count := userCount s u.user_id } : ReportRow)
        ∈ listUsersWithCounts s) ∧
    (listUsersWithCounts s).length = s.users.length ∧
    (∀ t : Store, t.users = s.users → t.checkins = s.checkins →
      listUsersWithCounts t = listUsersWithCounts s) := by
  refine ⟨List.sorted_insertionSort byCountDesc _, ?_, ?_, ?_⟩
  · intro u hu
    rw [listUsersWithCounts, List.mem_insertionSort, List.mem_map]
    exact ⟨u, hu, rfl⟩
  · rw [listUsersWithCounts,
      (List.perm_insertionSort byCountDesc _).length_eq, List.length_map]
  · intro t h1 h2
    simp [listUsersWithCounts, userCount, h1, h2]

/-- C4 witness: a store holding one registered user with no check-ins
still yields that user's row, with count 0. -/
theorem listUsersWithCounts_spec_witness :
    ({ user_id := 1, username := some "alice", first_name := "Alice"
     , last_name := none, checkin_count := 0 } : ReportRow)
      ∈ listUsersWithCounts (insertUser emptyStore demoUser 0) :=
  (listUsersWithCounts_spec (insertUser emptyStore demoUser 0)).2.1
    { user_id := 1, username := some "alice", first_name := "Alice"
    , last_name := none, join_date := 0 } (by decide)

/-! ### Double counting: the grand total versus the per-user counts -/

theorem sum_map_add_nat {α : Type} (l : List α) (f g : α → Nat) :
    (l.map (fun a => f a + g a)).sum = (l.map f).sum + (l.map g).sum := by
  induction l with
  | nil => simp
  | cons a t ih => simp [ih]; omega

theorem sum_map_zero {α : Type} (l : List α) :
    (l.map (fun _ => (0 : Nat))).sum = 0 := by
  induction l with
  | nil => rfl
  | cons a t ih => simp [ih]

theorem sum_ind_eq_zero (users : List UserRow) (x : Int)
    (h : ∀ r ∈ users, r.user_id ≠ x) :
    (users.map (fun u => if x == u.user_id then 1 else 0)).sum = 0 := by
  induction users with
  | nil => rfl
  | cons u us ih =>
      have hu : x ≠ u.user_id := fun he =>
        h u (List.mem_cons_self u us) he.symm
      simp only [List.map_cons, List.sum_cons, beq_iff_eq, hu, if_false]
      simpa using ih (fun r hr => h r (List.mem_cons_of_mem u hr))

theorem sum_ind_eq_one (users : List UserRow) (x : Int)
    (hnodup : (users.map (fun r => r.user_id)).Nodup)
    (hmem : ∃ r ∈ users, r.user_id = x) :
    (users.map (fun u => if x == u.user_id then 1 else 0)).sum = 1 := by
  induction users with
  | nil => simp at hmem
  | cons u us ih =>
      rw [List.map_cons, List.nodup_cons] at hnodup
      obtain ⟨hhead, htail⟩ := hnodup
      obtain ⟨r, hr, hrx⟩ := hmem
      by_cases hx : x = u.user_id
      · have h1 : (if x == u.user_id then (1 : Nat) else 0) = 1 := by
          simp [hx]
        have hzero :
            (us.map (fun v => if x == v.user_id then (1 : Nat) else 0)).sum
              = 0 := by
          apply sum_ind_eq_zero
          intro q hq he
          have hm : q.user_id ∈ us.map (fun v => v.user_id) :=
            List.mem_map_of_mem _ hq
          rw [he, hx] at hm
          exact hhead hm
        rw [List.map_cons, List.sum_cons, h1, hzero]
      · have h1 : (if x == u.user_id then (1 : Nat) else 0) = 0 := by
          simp [hx]
        have hmem' : ∃ q ∈ us, q.user_id = x := by
          rcases List.mem_cons.mp hr with he | hm
          · exact absurd (by rw [← hrx, he]) hx
          · exact ⟨r, hm, hrx⟩
        rw [List.map_cons, List.sum_cons, h1, ih htail hmem']

theorem filter_cons_length (c : CheckinRow) (cs : List CheckinRow)
    (uid : Int) :
    ((c :: cs).filter (fun x => x.user_id == uid)).length =
      (if c.user_id == uid then 1 else 0) +
        (cs.filter (fun x => x.user_id == uid)).length := by
  by_cases h : (c.user_id == uid) = true <;>
    simp [List.filter_cons, h, Nat.add_comm]

theorem sum_userCounts (users : List UserRow) :
    ∀ cs : List CheckinRow,
      (users.map (fun r => r.user_id)).Nodup →
      (∀ c ∈ cs, ∃ r ∈ users, r.user_id = c.user_id) →
      (users.map
        (fun u => (cs.filter (fun x => x.user_id == u.user_id)).length)).sum =
        cs.length := by
  intro cs
  induction cs with
  | nil =>
      intro _ _
      simp [sum_map_zero users]
  | cons c cs' ih =>
      intro hnodup hfk
      have hsplit :
          (users.map (fun u =>
            ((c :: cs').filter (fun x => x.user_id == u.user_id)).length)) =
          users.map (fun u =>
            (if c.user_id == u.user_id then 1 else 0) +
              (cs'.filter (fun x => x.user_id == u.user_id)).length) := by
        exact List.map_congr_left (fun u _ => filter_cons_length c cs' u.user_id)
      rw [hsplit, sum_map_add_nat,
        sum_ind_eq_one users c.user_id hnodup
          (hfk c (List.mem_cons_self c cs')),
        ih hnodup (fun x hx => hfk x (List.mem_cons_of_mem c hx)),
        List.length_cons]
      omega

/-- C5.  At any store state satisfying the schema's integrity guarantees
(distinct user ids — the PRIMARY KEY — and every check-in row referencing
a registered user — the FOREIGN KEY), the grand total
`SELECT COUNT(*) FROM checkins` equals the sum of the per-user
`checkin_count` values of the listing query. -/
theorem total_eq_sum_of_counts (s : Store)
    (hnodup : (s.users.map (fun r => r.user_id)).Nodup)
    (hfk : ∀ c ∈ s.checkins, ∃ r ∈ s.users, r.user_id = c.user_id) :
    totalCheckinCount s =
      ((listUsersWithCounts s).map (fun r => r.checkin_count)).sum := by
  have hperm := List.perm_insertionSort byCountDesc
    (s.users.map (fun u =>
      ({ user_id := u.user_id, username := u.username
       , first_name := u.first_name, last_name := u.last_name
       , checkin_count := userCount s u.user_id } : ReportRow)))
  rw [listUsersWithCounts, (hperm.map (fun r => r.checkin_count)).sum_eq,
    List.map_map]
  have : ((fun r : ReportRow => r.checkin_count) ∘ fun u : UserRow =>
      ({ user_id := u.user_id, username := u.username
       , first_name := u.first_name, last_name := u.last_name
       , checkin_count := userCount s u.user_id } : ReportRow)) =
      fun u : UserRow =>
        (s.checkins.filter (fun x => x.user_id == u.user_id)).length := by
    funext u
    rfl
  rw [this, sum_userCounts s.users s.checkins hnodup hfk]
  rfl

/-- C5 witness: with two users and three check-ins, the total 3 equals
the sum of the per-user counts 2 + 1. -/
theorem total_eq_sum_of_counts_witness :
    totalCheckinCount (runCheckins
        [⟨demoUser, "2024-01-01", 0⟩, ⟨demoUserB, "2024-01-01", 1⟩,
         ⟨demoUser, "2024-01-02", 2⟩]) =
      ((listUsersWithCounts (runCheckins
          [⟨demoUser, "2024-01-01", 0⟩, ⟨demoUserB, "2024-01-01", 1⟩,
           ⟨demoUser, "2024-01-02", 2⟩])).map
        (fun r => r.checkin_count)).sum :=
  total_eq_sum_of_counts (runCheckins
      [⟨demoUser, "2024-01-01", 0⟩, ⟨demoUserB, "2024-01-01", 1⟩,
       ⟨demoUser, "2024-01-02", 2⟩])
    (by decide) (by decide)

/-! ### Authorization and the empty report -/

/-- C6.  A requester whose id is not in the configured admin set is
rejected by `stats` regardless of the store's contents: the result is
the permission denial, no report data is produced, and — since the
handler returns before opening the database — the result does not depend
on the store at all. -/
theorem stats_unauthorized_no_read (admins : List Int) (r : Int) (s : Store)
    (h : r ∉ admins) :
    stats admins r s = StatsResult.unauthorized ∧
    (∀ s' : Store, stats admins r s' = stats admins r s) := by
  refine ⟨by simp [stats, h], fun s' => by simp [stats, h]⟩

/-- C6 witness: a non-admin requester against a populated store. -/
theorem stats_unauthorized_no_read_witness :
    stats [1] 2 (runCheckins [⟨demoUser, "2024-01-01", 0⟩]) =
      StatsResult.unauthorized :=
  (stats_unauthorized_no_read [1] 2
    (runCheckins [⟨demoUser, "2024-01-01", 0⟩]) (by decide)).1

/-- C7 counterexample.  The claim says an authorized admin querying a
store in which no user has ever checked in receives a `Report` with an
empty per-user sequence and total 0.  The code instead takes the
`if not results` early return of line 157 and replies with the dedicated
"no records yet" message, never assembling a report or running the total
query: with admin set [1] and requester 1 on the empty store, `stats`
yields `noData`, not `report [] 0`. -/
theorem stats_empty_store_counterexample :
    stats [1] 1 emptyStore = StatsResult.noData ∧
    (stats [1] 1 emptyStore == StatsResult.report [] 0) = false := by
  decide

/-- C7 (corrected).  When an authorized admin queries a store with no
users and no check-ins, `stats` returns the dedicated no-data outcome —
a normal informational reply distinct from the permission denial, not an
error — and at that state the per-user listing is indeed empty and the
grand total is 0. -/
theorem stats_empty_is_noData (admins : List Int) (a : Int) (s : Store)
    (ha : a ∈ admins) (hu : s.users = []) (hc : s.checkins = []) :
    stats admins a s = StatsResult.noData ∧
    listUsersWithCounts s = [] ∧
    totalCheckinCount s = 0 ∧
    (StatsResult.noData == StatsResult.unauthorized) = false := by
  have hrows : listUsersWithCounts s = [] := by
    simp [listUsersWithCounts, hu]
  refine ⟨?_, hrows, ?_, by decide⟩
  · simp [stats, ha, hrows]
  · simp [totalCheckinCount, hc]

/-- C7 witness: admin 1 on the empty store. -/
theorem stats_empty_is_noData_witness :
    stats [1] 1 emptyStore = StatsResult.noData :=
  (stats_empty_is_noData [1] 1 emptyStore (by decide) rfl rfl).1

/-- C10 (implicit).  When `config.json` has no `ADMIN_IDS` entry — or an
empty one — `get_admin_ids` yields the empty admin set, so every `stats`
request from every requester is rejected: the authorization check fails
closed. -/
theorem stats_fails_closed (cfg : Config) (r : Int) (s : Store)
    (h : cfg.adminIds = none ∨ cfg.adminIds = some []) :
    stats (get_admin_ids cfg) r s = StatsResult.unauthorized := by
  have hempty : get_admin_ids cfg = [] := by
    rcases h with h | h <;> simp [get_admin_ids, h]
  simp [stats, hempty]

/-- C10 witness: with `ADMIN_IDS` absent, requester 1 is rejected even
against a populated store. -/
theorem stats_fails_closed_witness :
    stats (get_admin_ids ⟨none⟩) 1 (runCheckins [⟨demoUser, "2024-01-01", 0⟩]) =
      StatsResult.unauthorized :=
  stats_fails_closed ⟨none⟩ 1 (runCheckins [⟨demoUser, "2024-01-01", 0⟩])
    (Or.inl rfl)

/-! ### Storage-failure propagation -/

theorem hasCheckedIn_insertUser (s : Store) (u : UserInfo) (now : Nat)
    (uid : Int) (d : String) :
    hasCheckedIn (insertUser s u now) uid d = hasCheckedIn s uid d := rfl

/-- C8.  `checkin` contains no exception handler: a failure of any of
its four database statements aborts the request with exactly that
failure (verbatim propagation, one clause per statement below); a
successful result always coincides with the fault-free handler's, so a
storage failure never produces an outcome that implies a successful
check-in; and the generic apology message is produced exactly when the
handler raised — i.e. only by the outer `error_handler`. -/
theorem checkin_storage_error_propagation (f : Faults) (s : Store)
    (u : UserInfo) (today : String) (now : Nat) :
    (∀ r, checkinE f s u today now = Except.ok r →
      r = checkin s u today now) ∧
    (∀ r, checkinE f s u today now = Except.ok r →
      checkinReply f s u today now ≠ msgGenericError) ∧
    (∀ e, checkinE f s u today now = Except.error e →
      checkinReply f s u today now = msgGenericError) ∧
    (f.usersSelect = true →
      checkinE f s u today now = Except.error StorageError.usersSelect) ∧
    (f.usersSelect = false → userExists s u.id = false →
      f.usersInsert = true →
      checkinE f s u today now = Except.error StorageError.usersInsert) ∧
    (f.usersSelect = false →
      (f.usersInsert = false ∨ userExists s u.id = true) →
      f.checkinsSelect = true →
      checkinE f s u today now = Except.error StorageError.checkinsSelect) ∧
    (f.usersSelect = false →
      (f.usersInsert = false ∨ userExists s u.id = true) →
      f.checkinsSelect = false → hasCheckedIn s u.id today = false →
      f.checkinsInsert = true →
      checkinE f s u today now = Except.error StorageError.checkinsInsert) := by
  by_cases h1 : f.usersSelect = true <;>
    by_cases h2 : f.usersInsert = true <;>
    by_cases h3 : f.checkinsSelect = true <;>
    by_cases h4 : f.checkinsInsert = true <;>
    by_cases h5 : userExists s u.id = true <;>
    by_cases h6 : hasCheckedIn s u.id today = true <;>
    simp_all [checkinE, checkin, checkinReply, ensureUser,
      hasCheckedIn_insertUser, msgSuccess, msgAlready, msgGenericError]

/-- C8 witness: when the check-in INSERT itself fails for a fresh
(user, day), the request aborts with exactly that storage error and the
user sees the generic failure message of the outer error handler. -/
theorem checkin_storage_error_propagation_witness :
    checkinE { checkinsInsert := true } emptyStore demoUser "2024-01-01" 0 =
      Except.error StorageError.checkinsInsert ∧
    checkinReply { checkinsInsert := true } emptyStore demoUser
      "2024-01-01" 0 = msgGenericError := by
  have h := checkin_storage_error_propagation { checkinsInsert := true }
    emptyStore demoUser "2024-01-01" 0
  have herr := h.2.2.2.2.2.2 rfl (Or.inl rfl) rfl (by decide) rfl
  exact ⟨herr, h.2.2.1 StorageError.checkinsInsert herr⟩

end CheckinBot
